import Mathlib

set_option maxRecDepth 100000

/-!
Verification development for the Gold IRA transcript-analysis MCP server.

The definitions below are a shallow embedding of the TypeScript sources:
  * `src/middleware/validation.ts` (`InputSanitizer.sanitizeTranscriptText`,
    `TranscriptAnalysisRequestSchema`, `ValidationMiddleware.validateBusinessRules`,
    `SessionManager`),
  * `src/utils/analysisOrchestrator.ts` (`AnalysisOrchestrator`),
  * `src/tools/analyzeGoldIRATranscript.ts` (`AnalyzeGoldIRATranscriptTool.execute`),
  * `src/types/goldira.ts` (enums, metadata, `PROMPT_EXECUTION_ORDER`).

JavaScript numbers are modelled as exact rationals (the values flowing through the
summary aggregation are small integers), strings as Lean strings (the inputs of
interest are BMP text, where JS UTF-16 length and Lean char length agree), thrown
exceptions as `Except String`, and the JS regular-expression replacements of the
sanitizer as explicit left-to-right scanners with the exact per-pattern matching
semantics of the source regexes.
-/

/-! ### JS character classes (regex `\s`, `\w`, `.` without the `s` flag) -/

/-- Whitespace recognised by the JS regex class `\s` and by `String.prototype.trim`. -/
def isJsSpace (c : Char) : Bool :=
  c == ' ' || c == '\t' || c == '\n' || c == '\x0d' || c == '\x0b' || c == '\x0c' ||
  c == '\u00A0' || c == '\u1680' ||
  (decide (0x2000 ≤ c.toNat) && decide (c.toNat ≤ 0x200A)) ||
  c == '\u2028' || c == '\u2029' || c == '\u202F' || c == '\u205F' ||
  c == '\u3000' || c == '\uFEFF'

/-- Word characters recognised by the JS regex class `\w` (A-Z, a-z, 0-9, underscore). -/
def isJsWordChar (c : Char) : Bool :=
  (decide ('a'.toNat ≤ c.toNat) && decide (c.toNat ≤ 'z'.toNat)) ||
  (decide ('A'.toNat ≤ c.toNat) && decide (c.toNat ≤ 'Z'.toNat)) ||
  (decide ('0'.toNat ≤ c.toNat) && decide (c.toNat ≤ '9'.toNat)) ||
  c == '_'

/-- Characters matched by the JS regex `.` without the `s` flag (anything but a
line terminator). -/
def isDotChar (c : Char) : Bool :=
  !(c == '\n' || c == '\x0d' || c == '\u2028' || c == '\u2029')

/-- Case-insensitive prefix test: does the text start with the (lowercase) pattern,
mirroring a regex literal with the `i` flag. -/
def ciStartsWith : List Char → List Char → Bool
  | [], _ => true
  | _ :: _, [] => false
  | p :: ps, c :: cs => c.toLower == p && ciStartsWith ps cs

/-- The suffix after the first `>` character, if any: this is how the greedy
`[^>]*>` part of the sanitizer's tag regexes consumes input. -/
def afterFirstGt : List Char → Option (List Char)
  | [] => none
  | c :: cs => if c == '>' then some cs else afterFirstGt cs

/-! ### The four regex replacements of `InputSanitizer.sanitizeTranscriptText` -/

/-- The literal characters of the pattern `javascript:`. -/
def jsUriChars : List Char := ['j', 'a', 'v', 'a', 's', 'c', 'r', 'i', 'p', 't', ':']

/-- The literal characters of the opening part `<script` of the script-block regex. -/
def scriptOpenChars : List Char := ['<', 's', 'c', 'r', 'i', 'p', 't']

/-- The literal characters of the closing part of the script-block regex. -/
def scriptCloseChars : List Char := ['<', '/', 's', 'c', 'r', 'i', 'p', 't', '>']

/-- Attempt to match `/javascript:/i` at the head of the text; on success return
the suffix after the match. -/
def jsUriMatchAt (l : List Char) : Option (List Char) :=
  if ciStartsWith jsUriChars l then some (l.drop 11) else none

/-- Attempt to match `/<[^>]*>/` at the head of the text. -/
def tagMatchAt (l : List Char) : Option (List Char) :=
  match l with
  | [] => none
  | c :: cs => if c == '<' then afterFirstGt cs else none

/-- The lazy `.*?<\/script>` part of the script-block regex: advance through
dot-characters until the earliest position where `</script>` matches
(case-insensitively); fail at a line terminator or at the end of input. -/
def findCloseScript : List Char → Option (List Char)
  | [] => none
  | c :: cs =>
    if ciStartsWith scriptCloseChars (c :: cs) then some ((c :: cs).drop 9)
    else if isDotChar c then findCloseScript cs
    else none

/-- Attempt to match `/<script[^>]*>.*?<\/script>/i` (with `.` not crossing line
terminators) at the head of the text. -/
def scriptMatchAt (l : List Char) : Option (List Char) :=
  if ciStartsWith scriptOpenChars l then
    match afterFirstGt (l.drop 7) with
    | none => none
    | some afterOpen => findCloseScript afterOpen
  else none

/-- Attempt to match `/on\w+\s*=/i` at the head of the text.  The pattern is
deterministic: after `on`, a maximal nonempty `\w` run, a maximal `\s` run and a
literal `=` (no successful backtracking exists because `\w`, `\s` and `=` are
pairwise disjoint). -/
def onAttrMatchAt (l : List Char) : Option (List Char) :=
  match l with
  | c1 :: c2 :: rest =>
    if c1.toLower == 'o' && c2.toLower == 'n' then
      if (rest.takeWhile isJsWordChar).isEmpty then none
      else
        match (rest.dropWhile isJsWordChar).dropWhile isJsSpace with
        | '=' :: tail => some tail
        | _ => none
    else none
  | _ => none

/-- Fuel-indexed left-to-right global scanner for a `String.replace(regex, '')`
with a match-attempt function: at each position, delete a match and continue
after it, or keep the character and move one position right.  Fuel is consumed
one unit per position so that the recursion is structural; `scanRemove` below
supplies enough fuel for the fallback case to be unreachable. -/
def scanRemoveF (matchAt : List Char → Option (List Char)) : Nat → List Char → List Char
  | _, [] => []
  | 0, l => l
  | fuel + 1, c :: cs =>
    match matchAt (c :: cs) with
    | some rest => scanRemoveF matchAt fuel rest
    | none => c :: scanRemoveF matchAt fuel cs

/-- Global regex deletion (`String.replace(re, '')` with the `g` flag).  Every
sanitizer match consumes at least one character (proved below), so `l.length`
fuel always suffices and the fuel fallback is unreachable. -/
def scanRemove (matchAt : List Char → Option (List Char)) (l : List Char) : List Char :=
  scanRemoveF matchAt l.length l

/-- `text.replace(/<script[^>]*>.*?<\/script>/gi, '')`. -/
def removeScriptBlocks (l : List Char) : List Char := scanRemove scriptMatchAt l

/-- `text.replace(/<[^>]*>/g, '')`. -/
def stripTags (l : List Char) : List Char := scanRemove tagMatchAt l

/-- `text.replace(/javascript:/gi, '')`. -/
def removeJsUri (l : List Char) : List Char := scanRemove jsUriMatchAt l

/-- `text.replace(/on\w+\s*=/gi, '')`. -/
def removeOnAttr (l : List Char) : List Char := scanRemove onAttrMatchAt l

/-- `String.prototype.trim`: drop JS whitespace from both ends. -/
def jsTrim (l : List Char) : List Char :=
  List.rdropWhile isJsSpace (l.dropWhile isJsSpace)

/-- The full cleaning chain of `InputSanitizer.sanitizeTranscriptText`, in source
order: script blocks, HTML tags, `javascript:` URIs, inline event handlers, trim. -/
def sanitizeList (l : List Char) : List Char :=
  jsTrim (removeOnAttr (removeJsUri (stripTags (removeScriptBlocks l))))

/-- `InputSanitizer.MAX_TEXT_LENGTH`. -/
def MAX_TEXT_LENGTH : Nat := 100000

/-- `InputSanitizer.sanitizeTranscriptText` with thrown errors as `Except.error`. -/
def sanitizeTranscriptText (text : String) : Except String String :=
  if MAX_TEXT_LENGTH < text.length then
    .error "Transcript too long. Maximum 100000 characters allowed"
  else if (String.mk (sanitizeList text.toList)).length = 0 then
    .error "Transcript cannot be empty after sanitization"
  else .ok (String.mk (sanitizeList text.toList))

/-! ### `TranscriptAnalysisRequestSchema` (Zod request validation) -/

/-- `retirementStatus` tags of the validation-middleware metadata schema. -/
inductive VRetirementStatus where
  | preRetirement | recentlyRetired | retired
deriving DecidableEq

/-- Account-type tags of the validation-middleware metadata schema. -/
inductive VAccountType where
  | ira | k401 | b403 | rothIra | cash | brokerage
deriving DecidableEq

/-- `investmentExperience` tags of the validation-middleware metadata schema. -/
inductive VInvestmentExperience where
  | novice | intermediate | experienced
deriving DecidableEq

/-- `urgencyLevel` tags of the validation-middleware metadata schema. -/
inductive VUrgencyLevel where
  | low | medium | high
deriving DecidableEq

/-- The metadata object accepted by `TranscriptAnalysisRequestSchema` (all fields
optional).  Zod strips keys that are not declared here, so fields of the Gold IRA
tool schema such as `prospectName`, `salesRep` or `goldIRAInterest` never survive
this validation layer. -/
structure VMetadata where
  callDate : Option String := none
  duration : Option ℚ := none
  agentName : Option String := none
  customerAge : Option ℚ := none
  retirementStatus : Option VRetirementStatus := none
  accountTypes : Option (List VAccountType) := none
  investmentExperience : Option VInvestmentExperience := none
  familyMembers : Option ℚ := none
  urgencyLevel : Option VUrgencyLevel := none
  previousContacts : Option ℚ := none
deriving DecidableEq

/-- A raw (pre-validation) request as received by the middleware. -/
structure RawRequest where
  transcript : String
  filename : Option String := none
  metadata : Option VMetadata := none
  sessionId : Option String := none
deriving DecidableEq

/-- A validated request (`z.infer<typeof TranscriptAnalysisRequestSchema>`): the
transcript has passed the length bounds and been sanitized. -/
structure TranscriptRequest where
  transcript : String
  filename : Option String := none
  metadata : Option VMetadata := none
  sessionId : Option String := none
deriving DecidableEq

/-- `InputSanitizer.MAX_FILENAME_LENGTH`. -/
def MAX_FILENAME_LENGTH : Nat := 255

/-- `InputSanitizer.ALLOWED_FILE_EXTENSIONS`. -/
def ALLOWED_FILE_EXTENSIONS : List (List Char) :=
  [['.', 't', 'x', 't'], ['.', 'p', 'd', 'f'], ['.', 'd', 'o', 'c', 'x']]

/-- `filename.substring(filename.lastIndexOf('.'))`: the suffix from the last dot
(JS `substring(-1)` clamps to 0, so a dotless name yields the whole string). -/
def extFrom (l : List Char) : List Char :=
  let afterDotRev := l.reverse.takeWhile (fun c => !(c == '.'))
  if afterDotRev.length = l.length then l else '.' :: afterDotRev.reverse

/-- `InputSanitizer.validateFilename`. -/
def validateFilename (filename : String) : Bool :=
  if filename.length = 0 then false
  else if MAX_FILENAME_LENGTH < filename.length then false
  else if decide (['.', '.'] <:+: filename.toList) || filename.toList.contains '/' ||
      filename.toList.contains '\\' then false
  else ALLOWED_FILE_EXTENSIONS.contains ((extFrom filename.toList).map Char.toLower)

/-- Structural issues Zod raises for the metadata object.  The `dt` parameter is
the datetime-format predicate of `z.string().datetime()`, which is Zod library
behaviour external to this repository; every theorem below holds for all `dt`.
Zod reports each violated bound as its own issue; a combined range check accepts
and rejects exactly the same values, so one message per field suffices here. -/
def zodMetadataIssues (dt : String → Bool) (m : VMetadata) : List String :=
  (match m.callDate with
   | some d => if dt d then [] else ["metadata.callDate must be a valid datetime"]
   | none => []) ++
  (match m.duration with
   | some q => if 60 ≤ q ∧ q ≤ 7200 then [] else ["metadata.duration out of range"]
   | none => []) ++
  (match m.agentName with
   | some a => if 1 ≤ a.length ∧ a.length ≤ 100 then [] else ["metadata.agentName out of range"]
   | none => []) ++
  (match m.customerAge with
   | some q => if 18 ≤ q ∧ q ≤ 120 then [] else ["metadata.customerAge out of range"]
   | none => []) ++
  (match m.accountTypes with
   | some l =>
     (if l.length < 1 then ["At least one account type required"] else []) ++
     (if 6 < l.length then ["Too many account types selected"] else [])
   | none => []) ++
  (match m.familyMembers with
   | some q => if 1 ≤ q ∧ q ≤ 20 then [] else ["metadata.familyMembers out of range"]
   | none => []) ++
  (match m.previousContacts with
   | some q => if 0 ≤ q ∧ q ≤ 50 then [] else ["metadata.previousContacts out of range"]
   | none => [])

/-- Structural issues Zod raises for a raw request. -/
def zodRequestIssues (dt : String → Bool) (r : RawRequest) : List String :=
  (if r.transcript.length < 100 then ["Transcript must be at least 100 characters"] else []) ++
  (if 100000 < r.transcript.length then ["Transcript cannot exceed 100,000 characters"] else []) ++
  (match r.filename with
   | some f => if validateFilename f then [] else ["Invalid filename format or extension"]
   | none => []) ++
  (match r.metadata with
   | some m => zodMetadataIssues dt m
   | none => []) ++
  (match r.sessionId with
   | some s => if 32 ≤ s.length ∧ s.length ≤ 128 then [] else ["sessionId length out of range"]
   | none => [])

/-- `ValidationMiddleware.validateTranscriptRequest`: a Zod parse of the request.
Structural issues become the thrown `Validation failed: ...` message (the exact
JSON rendering of the issue list is elided; the issue texts are kept).  If the
structural checks pass, the transcript field's `.transform` runs the sanitizer,
whose own exceptions propagate unwrapped, and the sanitized transcript replaces
the raw one in the validated value. -/
def validateTranscriptRequest (dt : String → Bool) (r : RawRequest) :
    Except String TranscriptRequest :=
  match zodRequestIssues dt r with
  | [] =>
    match sanitizeTranscriptText r.transcript with
    | .error e => .error e
    | .ok cleaned =>
      .ok { transcript := cleaned, filename := r.filename,
            metadata := r.metadata, sessionId := r.sessionId }
  | issues => .error ("Validation failed: " ++ String.intercalate "; " issues)

/-! ### `ValidationMiddleware.validateBusinessRules` -/

/-- Number of maximal whitespace runs encountered, tracking whether the scanner
is currently inside a run. -/
def wsRunsAux : Bool → List Char → Nat
  | _, [] => 0
  | inRun, c :: cs =>
    if isJsSpace c then (if inRun then wsRunsAux true cs else 1 + wsRunsAux true cs)
    else wsRunsAux false cs

/-- `transcript.split(/\s+/).length`: one more than the number of maximal
whitespace runs (a leading or trailing run contributes an empty field, exactly
as in JS). -/
def jsSplitWsCount (s : String) : Nat := 1 + wsRunsAux false s.toList

/-- The list of business-rule issues, in source order. -/
def businessRuleIssues (r : TranscriptRequest) : List String :=
  let wordCount := jsSplitWsCount r.transcript
  (if wordCount < 50 then ["Transcript appears too short for meaningful analysis"] else []) ++
  (if 10000 < wordCount then ["Transcript may be too long for optimal processing"] else []) ++
  (match r.metadata.bind (·.customerAge), r.metadata.bind (·.retirementStatus) with
   | some age, some status =>
     (if age < 50 ∧ status = .retired then
        ["Customer age and retirement status seem inconsistent"] else []) ++
     (if 75 < age ∧ status = .preRetirement then
        ["Customer age suggests closer to retirement than indicated"] else [])
   | _, _ => []) ++
  (match r.metadata.bind (·.accountTypes) with
   | some types =>
     if types.contains .k401 ∧ types.contains .b403 then
       ["Customer unlikely to have both 401k and 403b accounts"] else []
   | none => []) ++
  (match r.metadata.bind (·.duration) with
   | some actualDuration =>
     if r.transcript = "" then []
     else
       let estimatedDuration : ℚ := ((Int.ceil ((wordCount : ℚ) / 150) : ℤ) : ℚ) * 60
       if actualDuration * (1/2) < |estimatedDuration - actualDuration| then
         ["Transcript length and call duration seem inconsistent"] else []
   | none => [])

/-- `ValidationMiddleware.validateBusinessRules`: throws when any issue is found
(the violations are also logged to the security event sink, a side effect not
modelled here), otherwise returns `true`. -/
def validateBusinessRules (r : TranscriptRequest) : Except String Unit :=
  match businessRuleIssues r with
  | [] => .ok ()
  | issues => .error ("Business rule validation failed: " ++ String.intercalate "; " issues)

/-! ### `SessionManager` -/

/-- One entry of `SessionManager.sessions`. -/
structure Session where
  id : Nat
  created : Nat
  lastAccess : Nat
  analysisCount : Nat
deriving DecidableEq

/-- The session registry.  `crypto.randomBytes` identifiers are modelled by the
`nextId` counter (the property the code relies on is freshness); `Map.set` is
modelled by inserting the new binding at the front, and `Map.get` by the first
matching entry, so a newer binding shadows an older one for the same key. -/
structure Registry where
  sessions : List Session := []
  nextId : Nat := 0
deriving DecidableEq

/-- `SessionManager.SESSION_TIMEOUT` (milliseconds). -/
def SESSION_TIMEOUT : Nat := 30 * 60 * 1000

/-- `SessionManager.MAX_ANALYSES_PER_SESSION`. -/
def MAX_ANALYSES_PER_SESSION : Nat := 10

/-- `this.sessions.get(sessionId)`. -/
def lookupSession (r : Registry) (id : Nat) : Option Session :=
  r.sessions.find? (fun s => s.id == id)

/-- `SessionManager.cleanupExpiredSessions` at time `now`. -/
def cleanupExpiredSessions (r : Registry) (now : Nat) : Registry :=
  { r with sessions := r.sessions.filter (fun s => decide (now - s.lastAccess ≤ SESSION_TIMEOUT)) }

/-- `SessionManager.createSession` at time `now`: mint a fresh identifier,
register it with a zero analysis count, then prune expired sessions. -/
def createSession (r : Registry) (now : Nat) : Registry × Nat :=
  let id := r.nextId
  let r1 : Registry :=
    { sessions := { id := id, created := now, lastAccess := now, analysisCount := 0 } :: r.sessions,
      nextId := r.nextId + 1 }
  (cleanupExpiredSessions r1 now, id)

/-- Update the first session with the given id (the binding `Map.get` returns). -/
def bumpFirst : List Session → Nat → List Session
  | [], _ => []
  | s :: rest, id =>
    if s.id == id then { s with analysisCount := s.analysisCount + 1 } :: rest
    else s :: bumpFirst rest id

/-- `SessionManager.incrementAnalysisCount`: false when the session is unknown or
its counter has reached the cap; otherwise increment and return true. -/
def incrementAnalysisCount (r : Registry) (id : Nat) : Registry × Bool :=
  match lookupSession r id with
  | none => (r, false)
  | some s =>
    if MAX_ANALYSES_PER_SESSION ≤ s.analysisCount then (r, false)
    else ({ r with sessions := bumpFirst r.sessions id }, true)

/-- Refresh the last-access time of the first session with the given id. -/
def refreshFirst : List Session → Nat → Nat → List Session
  | [], _, _ => []
  | s :: rest, id, now =>
    if s.id == id then { s with lastAccess := now } :: rest
    else s :: refreshFirst rest id now

/-- `SessionManager.validateSession` at time `now`. -/
def validateSession (r : Registry) (id : Nat) (now : Nat) : Registry × Bool :=
  match lookupSession r id with
  | none => (r, false)
  | some s =>
    if SESSION_TIMEOUT < now - s.lastAccess then
      ({ r with sessions := r.sessions.filter (fun t => !(t.id == id)) }, false)
    else ({ r with sessions := refreshFirst r.sessions id now }, true)

/-! ### `AnalyzeGoldIRATranscriptTool.execute` -/

/-- The tool input after the MCP framework's schema parse: the transcript plus
whatever metadata fields survive into the validation middleware's schema. -/
structure ToolInput where
  transcript : String
  metadata : Option VMetadata := none
deriving DecidableEq

/-- The observable outcome of one tool invocation: a prepared-instructions result
or an `isError` response carrying the failure message. -/
inductive ToolOutcome where
  | success (sessionId : Nat) (sessionValid : Bool)
  | failure (message : String)
deriving DecidableEq

/-- The 64-hex-character rendering (`randomBytes(32).toString('hex')`) of a
session identifier.  Only its length is ever inspected (by the `sessionId`
bounds of the request schema), so the rendering is modelled as a fixed
64-character string while the registry itself is keyed by the `Nat` identifier. -/
def sessionHex (_n : Nat) : String := String.mk (List.replicate 64 'f')

/-- `AnalyzeGoldIRATranscriptTool.validateGoldIRAInput` (the legacy check).  The
validated metadata comes out of `TranscriptAnalysisRequestSchema`, which strips
keys it does not declare, so the Gold-IRA-schema fields `prospectName`,
`salesRep`, `goldIRAInterest` and `prospectAge` can never be present here: the
two required-name checks always fire, the ready-to-act check never does, and the
pre-retirement check fires whenever `retirementStatus` is `pre-retirement`. -/
def goldIRAInputErrors (transcript : String) (md : Option VMetadata) : List String :=
  let m := md.getD {}
  (if transcript.length < 100 then ["Transcript must be at least 100 characters long"] else []) ++
  ["Prospect name is required"] ++
  ["Sales representative name is required"] ++
  (match m.duration with
   | some d => if d ≤ 0 then ["Call duration must be greater than 0 minutes"] else []
   | none => ["Call duration must be greater than 0 minutes"]) ++
  (match m.accountTypes with
   | some l => if l.isEmpty then ["At least one account type must be specified"] else []
   | none => ["At least one account type must be specified"]) ++
  (match m.retirementStatus with
   | some .preRetirement => ["Age is recommended for pre-retirement prospects"]
   | _ => [])

/-- The thrown-or-passed form of the legacy check. -/
def validateGoldIRAInput (transcript : String) (md : Option VMetadata) :
    Except String Unit :=
  match goldIRAInputErrors transcript md with
  | [] => .ok ()
  | es => .error ("Input validation failed: " ++ String.intercalate ", " es)

/-- `AnalyzeGoldIRATranscriptTool.execute`: create a fresh session, validate and
sanitize the request, run the business rules, charge the (fresh) session, run
the legacy Gold IRA check, and build the result.  Any thrown error becomes an
`isError` response carrying the message. -/
def toolExecute (dt : String → Bool) (reg : Registry) (now : Nat) (input : ToolInput) :
    Registry × ToolOutcome :=
  let minted := createSession reg now
  let reg1 := minted.1
  let sid := minted.2
  match validateTranscriptRequest dt
      { transcript := input.transcript, filename := none,
        metadata := input.metadata, sessionId := some (sessionHex sid) } with
  | .error m => (reg1, .failure m)
  | .ok validated =>
    match validateBusinessRules validated with
    | .error m => (reg1, .failure m)
    | .ok _ =>
      match incrementAnalysisCount reg1 sid with
      | (reg2, false) => (reg2, .failure "Session analysis limit exceeded")
      | (reg2, true) =>
        match validateGoldIRAInput validated.transcript validated.metadata with
        | .error m => (reg2, .failure m)
        | .ok _ =>
          let checked := validateSession reg2 sid now
          (checked.1, .success sid checked.2)


/-! ### Gold IRA domain types (`src/types/goldira.ts`) -/

/-- `RetirementStatusEnum` of the Gold IRA schema. -/
inductive RetirementStatus where
  | preRetirement | recentlyRetired | retired
deriving DecidableEq

/-- `AccountTypeEnum` of the Gold IRA schema. -/
inductive GAccountType where
  | traditionalIra | k401 | rothIra | cashSavings | otherInvestments
deriving DecidableEq

/-- `InvestmentExperienceEnum` of the Gold IRA schema. -/
inductive InvestmentExperience where
  | none | basic | moderate | experienced
deriving DecidableEq

/-- `GoldIRAInterestEnum`. -/
inductive GoldIRAInterest where
  | researching | considering | readyToAct | undecided
deriving DecidableEq

/-- `CallPurposeEnum`. -/
inductive CallPurpose where
  | coldCall | followUp | consultation | closingCall
deriving DecidableEq

/-- `InvestmentReadinessEnum`. -/
inductive InvestmentReadiness where
  | high | medium | low | notReady
deriving DecidableEq

/-- `RiskLevelEnum` (note: it declares four tags including `critical`). -/
inductive RiskLevel where
  | low | medium | high | critical
deriving DecidableEq

/-- `GoldIRAMetadataSchema`. -/
structure GoldIRAMetadata where
  prospectName : String
  prospectAge : Option ℚ := Option.none
  retirementStatus : RetirementStatus
  accountTypes : List GAccountType
  accountValues : String
  familyMembers : String
  investmentExperience : InvestmentExperience
  goldIRAInterest : GoldIRAInterest
  currentConcerns : String
  timeframe : String
  duration : ℚ
  salesRep : String
  callPurpose : CallPurpose
  previousContact : Bool
deriving DecidableEq

/-! ### Stage analysis values

Stage results are untyped JSON objects in the source (`any`); the record below
models exactly the fields the orchestrator's aggregation reads
(`generateSummary`, `extractCriticalActions`, `determineOverallRisk`,
`generateNextSteps`), each optional since the object may lack it.  Where the
source reads a chain such as `conversation?.conversationScorecard?.overallQuality`
and then defaults with `|| 0`, absence at any level and absence at the innermost
level are observationally identical, so single-field inner records carry the
read field directly. -/

/-- The `conversationScorecard` object (only `overallQuality` is read). -/
structure ConversationScorecard where
  overallQuality : ℚ
deriving DecidableEq

/-- One `keyMoments` entry (only `moment` is read). -/
structure KeyMoment where
  moment : String
deriving DecidableEq

/-- One `missedOpportunities` entry (only `betterApproach` is read). -/
structure MissedOpportunity where
  betterApproach : String
deriving DecidableEq

/-- The `personalityType` object (only `confidence` is read by the aggregation). -/
structure PersonalityType where
  confidence : ℚ
deriving DecidableEq

/-- The `dealHealth` object (only `riskLevel` is read; it may itself be absent). -/
structure DealHealth where
  riskLevel : Option RiskLevel
deriving DecidableEq

/-- One `objectionInventory` entry (only `severity` is read). -/
structure ObjectionItem where
  severity : ℚ
deriving DecidableEq

/-- One `immediateActions` entry. -/
structure ImmediateAction where
  action : String
  priority : String
deriving DecidableEq

/-- One `followUpSequence` entry (only `objective` is read). -/
structure FollowUpItem where
  objective : String
deriving DecidableEq

/-- The `qualificationSummary` object (only `keyQualifiers` is read; it may be
absent). -/
structure QualificationSummary where
  keyQualifiers : Option (List String)
deriving DecidableEq

/-- A stage result object. -/
structure StageAnalysis where
  conversationScorecard : Option ConversationScorecard := Option.none
  keyMoments : Option (List KeyMoment) := Option.none
  missedOpportunities : Option (List MissedOpportunity) := Option.none
  profileSummary : Option String := Option.none
  personalityType : Option PersonalityType := Option.none
  objectionInventory : Option (List ObjectionItem) := Option.none
  dealHealth : Option DealHealth := Option.none
  immediateActions : Option (List ImmediateAction) := Option.none
  followUpSequence : Option (List FollowUpItem) := Option.none
  qualificationSummary : Option QualificationSummary := Option.none
deriving DecidableEq

/-! ### The orchestrator (`src/utils/analysisOrchestrator.ts`) -/

/-- Stage identifiers (`promptId`). -/
inductive StageId where
  | conversation | psychology | objections | dealRisk | actionPlan | qualification
deriving DecidableEq

/-- One entry of the execution-order table. -/
structure ExecutionStep where
  order : Nat
  promptId : StageId
  fileName : String
deriving DecidableEq

/-- The orchestrator's private `executionOrder` table (prompts run 2→3→4→5→6→1). -/
def executionOrder : List ExecutionStep :=
  [ { order := 1, promptId := .conversation, fileName := "Prompt.2" },
    { order := 2, promptId := .psychology, fileName := "Prompt.3" },
    { order := 3, promptId := .objections, fileName := "Prompt.4" },
    { order := 4, promptId := .dealRisk, fileName := "Prompt.5" },
    { order := 5, promptId := .actionPlan, fileName := "Prompt.6" },
    { order := 6, promptId := .qualification, fileName := "Prompt.1" } ]

/-- `PROMPT_EXECUTION_ORDER` from `src/types/goldira.ts` (textually the same
table as the orchestrator's private field). -/
def PROMPT_EXECUTION_ORDER : List ExecutionStep := executionOrder

/-- `AnalysisContext`: the transcript and metadata plus the accumulating
per-stage results that `updateContext` fills in. -/
structure AnalysisContext where
  transcript : String
  metadata : GoldIRAMetadata
  conversationInsights : Option StageAnalysis := Option.none
  psychologyProfile : Option StageAnalysis := Option.none
  objectionAnalysis : Option StageAnalysis := Option.none
  riskAssessment : Option StageAnalysis := Option.none
  actionPlan : Option StageAnalysis := Option.none
  finalQualification : Option StageAnalysis := Option.none
deriving DecidableEq

/-- `AnalysisOrchestrator.updateContext`. -/
def updateContext (ctx : AnalysisContext) (promptId : StageId) (analysis : StageAnalysis) :
    AnalysisContext :=
  match promptId with
  | .conversation => { ctx with conversationInsights := some analysis }
  | .psychology => { ctx with psychologyProfile := some analysis }
  | .objections => { ctx with objectionAnalysis := some analysis }
  | .dealRisk => { ctx with riskAssessment := some analysis }
  | .actionPlan => { ctx with actionPlan := some analysis }
  | .qualification => { ctx with finalQualification := some analysis }

/-- The `analyses` accumulator object, keyed by `promptId`. -/
structure Analyses where
  conversation : Option StageAnalysis := Option.none
  psychology : Option StageAnalysis := Option.none
  objections : Option StageAnalysis := Option.none
  dealRisk : Option StageAnalysis := Option.none
  actionPlan : Option StageAnalysis := Option.none
  qualification : Option StageAnalysis := Option.none
deriving DecidableEq

/-- `analyses[step.promptId] = analysis`. -/
def setAnalysis (a : Analyses) (promptId : StageId) (v : StageAnalysis) : Analyses :=
  match promptId with
  | .conversation => { a with conversation := some v }
  | .psychology => { a with psychology := some v }
  | .objections => { a with objections := some v }
  | .dealRisk => { a with dealRisk := some v }
  | .actionPlan => { a with actionPlan := some v }
  | .qualification => { a with qualification := some v }

/-- `Math.round` on an exact rational: round half toward positive infinity. -/
def jsRound (q : ℚ) : ℤ := Int.floor (q + 1/2)

/-- `AnalysisOrchestrator.extractCriticalActions`. -/
def extractCriticalActions (analyses : Analyses) : List String :=
  let fromPlan : List String :=
    match analyses.actionPlan.bind (fun a : StageAnalysis => a.immediateActions) with
    | some acts => (acts.filter (fun act => act.priority == "critical")).map (fun act => act.action)
    | Option.none => []
  let fromMissed : List String :=
    match analyses.conversation.bind (fun a : StageAnalysis => a.missedOpportunities) with
    | some opps => (opps.take 2).map (fun opp => "Address: " ++ opp.betterApproach)
    | Option.none => []
  (fromPlan ++ fromMissed).take 5

/-- `AnalysisOrchestrator.determineOverallRisk`.  Its declared return type
includes `critical`, but no branch produces it. -/
def determineOverallRisk (analyses : Analyses) : RiskLevel :=
  let dealRiskLevel := ((analyses.dealRisk.bind (fun a : StageAnalysis => a.dealHealth)).bind (fun d : DealHealth => d.riskLevel)).getD .medium
  let objectionSeverity : RiskLevel :=
    match analyses.objections.bind (fun a : StageAnalysis => a.objectionInventory) with
    | some inv => if inv.any (fun obj => decide (80 < obj.severity)) then .high else .medium
    | Option.none => .medium
  if dealRiskLevel = .critical ∨ objectionSeverity = .high then .high
  else if dealRiskLevel = .high then .medium
  else .low

/-- `AnalysisOrchestrator.generateNextSteps`. -/
def generateNextSteps (analyses : Analyses) (md : GoldIRAMetadata) : List String :=
  let familySteps :=
    if md.familyMembers ≠ "" ∧ md.familyMembers ≠ "none" then
      ["Schedule joint call with spouse/family members"] else []
  let accountSteps :=
    if md.accountTypes.contains GAccountType.k401 then
      ["Provide 401k rollover education materials"] else []
  let experienceSteps :=
    if md.investmentExperience = InvestmentExperience.none then
      ["Send Gold IRA basics educational package"] else []
  let planSteps : List String :=
    match analyses.actionPlan.bind (fun a : StageAnalysis => a.followUpSequence) with
    | some seqs => (seqs.take 3).map (fun s => s.objective)
    | Option.none => []
  (familySteps ++ accountSteps ++ experienceSteps ++ planSteps).take 5

/-- The `summary` record of a `GoldIRAAnalysisResult`. -/
structure Summary where
  overallQualificationScore : ℤ
  investmentReadiness : InvestmentReadiness
  keyInsights : List String
  criticalActions : List String
  riskLevel : RiskLevel
  recommendedNextSteps : List String
deriving DecidableEq

/-- `AnalysisOrchestrator.generateSummary` (the aggregation over the six stage
results and the request metadata). -/
def generateSummary (analyses : Analyses) (md : GoldIRAMetadata) : Summary :=
  let conversationScore : ℚ :=
    ((analyses.conversation.bind (fun a : StageAnalysis => a.conversationScorecard)).map (fun c : ConversationScorecard => c.overallQuality)).getD 0
  let psychologyConfidence : ℚ :=
    ((analyses.psychology.bind (fun a : StageAnalysis => a.personalityType)).map (fun p : PersonalityType => p.confidence)).getD 0
  let riskScore : ℚ :=
    match (analyses.dealRisk.bind (fun a : StageAnalysis => a.dealHealth)).bind (fun d : DealHealth => d.riskLevel) with
    | some .low => 80
    | some .medium => 60
    | some .high => 40
    | _ => 20
  let overallQualificationScore : ℤ :=
    jsRound (conversationScore * (3/10) + psychologyConfidence * (3/10) + riskScore * (4/10))
  let investmentReadiness : InvestmentReadiness :=
    if 80 ≤ overallQualificationScore ∧ md.goldIRAInterest = .readyToAct then .high
    else if 60 ≤ overallQualificationScore then .medium
    else if 40 ≤ overallQualificationScore then .low
    else .notReady
  let insightsFromMoments : List String :=
    match analyses.conversation.bind (fun a : StageAnalysis => a.keyMoments) with
    | some ms => (ms.take 2).map (fun m => m.moment)
    | Option.none => []
  let insightsFromProfile : List String :=
    match analyses.psychology.bind (fun a : StageAnalysis => a.profileSummary) with
    | some s => if s = "" then [] else [s]
    | Option.none => []
  let insightsFromQualifiers : List String :=
    match (analyses.qualification.bind (fun a : StageAnalysis => a.qualificationSummary)).bind (fun q : QualificationSummary => q.keyQualifiers) with
    | some l => l.take 2
    | Option.none => []
  { overallQualificationScore := overallQualificationScore,
    investmentReadiness := investmentReadiness,
    keyInsights := (insightsFromMoments ++ insightsFromProfile ++ insightsFromQualifiers).take 5,
    criticalActions := extractCriticalActions analyses,
    riskLevel := determineOverallRisk analyses,
    recommendedNextSteps := generateNextSteps analyses md }

/-- `GoldIRAAnalysisResult` (the identifier, timestamp and wall-clock fields come
from the environment — `randomUUID`, `Date.now` — and are not modelled). -/
structure GoldIRAAnalysisResult where
  executionOrder : List StageId
  analyses : Analyses
  summary : Summary
deriving DecidableEq

/-- Observable pipeline events: a stage beginning execution (with the context it
receives) and a stage result being merged into the context. -/
inductive PipelineEvent where
  | exec (stage : StageId) (ctx : AnalysisContext)
  | merge (stage : StageId)
deriving DecidableEq

/-- The orchestrator's loop over the execution-order table.  `stageFn` models
`executePromptStep` (prompt processing plus the model call), which may throw.
Each successful stage result is merged into the context before the next table
entry is considered; the returned trace records executions and merges in order. -/
def runSteps (stageFn : ExecutionStep → AnalysisContext → Except String StageAnalysis) :
    List ExecutionStep → AnalysisContext → Analyses →
    List PipelineEvent × Except String (AnalysisContext × Analyses)
  | [], ctx, acc => ([], .ok (ctx, acc))
  | step :: rest, ctx, acc =>
    match stageFn step ctx with
    | .error e => ([.exec step.promptId ctx], .error e)
    | .ok analysis =>
      let next := runSteps stageFn rest (updateContext ctx step.promptId analysis)
        (setAnalysis acc step.promptId analysis)
      (.exec step.promptId ctx :: .merge step.promptId :: next.1, next.2)

/-- `AnalysisOrchestrator.executeAnalysis`: run the six stages in table order,
then build the result with `executionOrder := this.executionOrder.map(s => s.promptId)`
and the generated summary; any stage error is rethrown as
`Gold IRA analysis failed: <error>`. -/
def executeAnalysis (stageFn : ExecutionStep → AnalysisContext → Except String StageAnalysis)
    (ctx : AnalysisContext) :
    List PipelineEvent × Except String GoldIRAAnalysisResult :=
  let run := runSteps stageFn executionOrder ctx {}
  (run.1,
   match run.2 with
   | .error e => .error ("Gold IRA analysis failed: " ++ e)
   | .ok (ctxFinal, analyses) =>
     .ok { executionOrder := executionOrder.map (·.promptId),
           analyses := analyses,
           summary := generateSummary analyses ctxFinal.metadata })

/-- The stage-id sequence of a pipeline trace, tagging executions with `true`
and merges with `false`. -/
def traceTags (tr : List PipelineEvent) : List (Bool × StageId) :=
  tr.map fun e =>
    match e with
    | .exec s _ => (true, s)
    | .merge s => (false, s)

/-- The `executionOrder` field of a successful result (empty on failure). -/
def resultExecutionOrder (r : Except String GoldIRAAnalysisResult) : List StageId :=
  match r with
  | .ok res => res.executionOrder
  | .error _ => []

/-- Does a context carry the results of all five stages prior to qualification? -/
def hasAllPriorResults (c : AnalysisContext) : Bool :=
  c.conversationInsights.isSome && c.psychologyProfile.isSome &&
  c.objectionAnalysis.isSome && c.riskAssessment.isSome && c.actionPlan.isSome

/-- Substring test used to state whether an error message mentions a stage. -/
def containsSubstr (s pat : String) : Bool := decide (pat.toList <:+: s.toList)

/-! ### Concrete inputs used by the witnesses and counterexamples -/

/-- A string of `n` letters. -/
def aChars (n : Nat) : String := String.mk (List.replicate n 'a')

/-- One two-letter word followed by a space. -/
def wordChars : List Char := ['a', 'a', ' ']

/-- A transcript of fifty two-letter words (150 characters, so it passes the
structural length bound and has a business-rule word count of 50). -/
def demoTranscript : String := String.mk (List.replicate 50 wordChars).flatten

/-- The same transcript after sanitization (the trailing space is trimmed). -/
def demoTranscriptClean : String := String.mk ((List.replicate 50 wordChars).flatten.dropLast)

/-- Metadata whose age and retirement status the business rules flag as
inconsistent (`customerAge < 50` together with `retired`). -/
def inconsistentMetadata : VMetadata :=
  { customerAge := some 45, retirementStatus := some VRetirementStatus.retired }

/-- A raw request that passes structural validation but violates a business rule. -/
def demoRawRequest : RawRequest :=
  { transcript := demoTranscript, metadata := some inconsistentMetadata }

/-- The validated form of `demoRawRequest`. -/
def demoValidated : TranscriptRequest :=
  { transcript := demoTranscriptClean, metadata := some inconsistentMetadata }

/-- The corresponding tool input. -/
def demoToolInput : ToolInput :=
  { transcript := demoTranscript, metadata := some inconsistentMetadata }

/-- The validated form of `demoToolInput` as seen inside the tool, where the
minted session identifier has been attached. -/
def demoValidatedSession : TranscriptRequest :=
  { transcript := demoTranscriptClean, metadata := some inconsistentMetadata,
    sessionId := some (sessionHex 0) }

/-- A registry already holding a session whose counter has reached the cap. -/
def cappedRegistry : Registry :=
  { sessions := [{ id := 7, created := 0, lastAccess := 0, analysisCount := 10 }], nextId := 8 }

/-- Concrete Gold IRA call metadata for pipeline runs. -/
def demoMetadata : GoldIRAMetadata :=
  { prospectName := "Claire", prospectAge := some 65,
    retirementStatus := RetirementStatus.retired,
    accountTypes := [GAccountType.k401], accountValues := "53000",
    familyMembers := "spouse", investmentExperience := InvestmentExperience.basic,
    goldIRAInterest := GoldIRAInterest.considering,
    currentConcerns := "market volatility", timeframe := "3 months",
    duration := 30, salesRep := "Brian", callPurpose := CallPurpose.consultation,
    previousContact := false }

/-- A pipeline context over `demoMetadata`. -/
def demoCtx : AnalysisContext :=
  { transcript := "transcript", metadata := demoMetadata }

/-- A stage executor that always succeeds with an empty analysis object. -/
def okStage : ExecutionStep → AnalysisContext → Except String StageAnalysis :=
  fun _ _ => .ok {}

/-- A stage executor whose third stage (`objections`) throws. -/
def failObjectionsStage : ExecutionStep → AnalysisContext → Except String StageAnalysis :=
  fun step _ =>
    if step.promptId = StageId.objections then .error "Error: boom" else .ok {}

/-- The context reaching the qualification stage under `okStage`. -/
def demoCtx5 : AnalysisContext :=
  updateContext (updateContext (updateContext (updateContext
    (updateContext demoCtx .conversation {}) .psychology {}) .objections {})
    .dealRisk {}) .actionPlan {}

/-- Six stage results scoring high on every aggregated signal. -/
def highAnalyses : Analyses :=
  { conversation := some { conversationScorecard := some { overallQuality := 100 } },
    psychology := some { personalityType := some { confidence := 100 } },
    dealRisk := some { dealHealth := some { riskLevel := some RiskLevel.low } } }

/-- `demoMetadata` with stated interest `ready-to-act`. -/
def mdReady : GoldIRAMetadata := { demoMetadata with goldIRAInterest := .readyToAct }

/-- `demoMetadata` with stated interest `researching`. -/
def mdResearching : GoldIRAMetadata := { demoMetadata with goldIRAInterest := .researching }

/-- `mdReady` with a different prospect but the same stated interest. -/
def mdReadyAlt : GoldIRAMetadata := { mdReady with prospectName := "Dana" }

/-- Stage results with a high deal risk and no recorded objections. -/
def mediumRiskAnalyses : Analyses :=
  { dealRisk := some { dealHealth := some { riskLevel := some RiskLevel.high } } }

/-- Stage results with a high deal risk and an objection of severity above 80. -/
def riskyAnalyses : Analyses :=
  { objections := some { objectionInventory := some [{ severity := 90 }] },
    dealRisk := some { dealHealth := some { riskLevel := some RiskLevel.high } } }

/-! ### Helper lemmas about the sanitizer scanners -/

theorem ciStartsWith_length {ps l : List Char} (h : ciStartsWith ps l = true) :
    ps.length ≤ l.length := by
  induction ps generalizing l with
  | nil => simp
  | cons p ps ih =>
    cases l with
    | nil => simp [ciStartsWith] at h
    | cons c cs =>
      simp only [ciStartsWith, Bool.and_eq_true] at h
      simpa using ih h.2

theorem afterFirstGt_length {l r : List Char} (h : afterFirstGt l = some r) :
    r.length < l.length := by
  induction l with
  | nil => simp [afterFirstGt] at h
  | cons c cs ih =>
    by_cases hc : c == '>'
    · simp only [afterFirstGt, hc, if_true, Option.some.injEq] at h
      subst h
      simp
    · simp only [afterFirstGt, hc, if_false, Bool.false_eq_true] at h
      have := ih h
      simp only [List.length_cons]
      omega

theorem findCloseScript_length {l r : List Char} (h : findCloseScript l = some r) :
    r.length < l.length := by
  induction l with
  | nil => simp [findCloseScript] at h
  | cons c cs ih =>
    by_cases hc : ciStartsWith scriptCloseChars (c :: cs) = true
    · have hlen := ciStartsWith_length hc
      simp only [findCloseScript, hc, if_true, Option.some.injEq] at h
      subst h
      simp only [scriptCloseChars, List.length_cons] at hlen
      simp only [List.drop, List.length_drop, List.length_cons]
      omega
    · by_cases hd : isDotChar c = true
      · simp only [findCloseScript, hc, hd, if_false, if_true, Bool.false_eq_true] at h
        have := ih h
        simp only [List.length_cons]
        omega
      · simp [findCloseScript, hc, hd] at h

theorem jsUriMatchAt_length : ∀ l r, jsUriMatchAt l = some r → r.length < l.length := by
  intro l r h
  by_cases hc : ciStartsWith jsUriChars l = true
  · have hlen := ciStartsWith_length hc
    simp only [jsUriChars, List.length_cons, List.length_nil] at hlen
    simp only [jsUriMatchAt, hc, if_true, Option.some.injEq] at h
    subst h
    simp only [List.length_drop]
    omega
  · simp [jsUriMatchAt, hc] at h

theorem tagMatchAt_length : ∀ l r, tagMatchAt l = some r → r.length < l.length := by
  intro l r h
  cases l with
  | nil => simp [tagMatchAt] at h
  | cons c cs =>
    by_cases hc : c == '<'
    · simp only [tagMatchAt, hc, if_true] at h
      have := afterFirstGt_length h
      simp only [List.length_cons]
      omega
    · simp [tagMatchAt, hc] at h

theorem scriptMatchAt_length : ∀ l r, scriptMatchAt l = some r → r.length < l.length := by
  intro l r h
  by_cases hc : ciStartsWith scriptOpenChars l = true
  · simp only [scriptMatchAt, hc, if_true] at h
    cases hg : afterFirstGt (l.drop 7) with
    | none => rw [hg] at h; exact absurd h (by simp)
    | some afterOpen =>
      rw [hg] at h
      have h1 := findCloseScript_length h
      have h2 := afterFirstGt_length hg
      have h3 : (l.drop 7).length ≤ l.length := by
        simp only [List.length_drop]
        omega
      omega
  · simp [scriptMatchAt, hc] at h

theorem onAttrMatchAt_length : ∀ l r, onAttrMatchAt l = some r → r.length < l.length := by
  intro l r h
  match l with
  | [] => simp [onAttrMatchAt] at h
  | [c1] => simp [onAttrMatchAt] at h
  | c1 :: c2 :: rest =>
    by_cases hon : (c1.toLower == 'o' && c2.toLower == 'n') = true
    · by_cases hw : (rest.takeWhile isJsWordChar).isEmpty = true
      · simp [onAttrMatchAt, hon, hw] at h
      · simp only [onAttrMatchAt, hon, hw, if_true, if_false, Bool.false_eq_true] at h
        cases hsp : (rest.dropWhile isJsWordChar).dropWhile isJsSpace with
        | nil => rw [hsp] at h; exact absurd h (by simp)
        | cons d tail =>
          rw [hsp] at h
          have hlen : (d :: tail).length ≤ rest.length := by
            calc (d :: tail).length
                = ((rest.dropWhile isJsWordChar).dropWhile isJsSpace).length := by rw [hsp]
              _ ≤ (rest.dropWhile isJsWordChar).length := (List.dropWhile_suffix _).length_le
              _ ≤ rest.length := (List.dropWhile_suffix _).length_le
          by_cases hd : d = '='
          · subst hd
            simp only [Option.some.injEq] at h
            subst h
            simp only [List.length_cons] at hlen ⊢
            omega
          · split at h
            · simp_all
            · exact absurd h (by simp)
    · simp [onAttrMatchAt, hon] at h

/-- Matchers whose every match consumes at least one character. -/
def Shrinking (matchAt : List Char → Option (List Char)) : Prop :=
  ∀ l r, matchAt l = some r → r.length < l.length

theorem scanRemoveF_fuel {matchAt : List Char → Option (List Char)}
    (hm : Shrinking matchAt) :
    ∀ f₁ f₂ l, l.length ≤ f₁ → l.length ≤ f₂ →
      scanRemoveF matchAt f₁ l = scanRemoveF matchAt f₂ l := by
  intro f₁
  induction f₁ with
  | zero =>
    intro f₂ l h1 _
    have : l = [] := by
      cases l with
      | nil => rfl
      | cons c cs => simp at h1
    subst this
    cases f₂ <;> rfl
  | succ g ih =>
    intro f₂ l h1 h2
    cases l with
    | nil => cases f₂ <;> rfl
    | cons c cs =>
      cases f₂ with
      | zero => simp at h2
      | succ g₂ =>
        simp only [scanRemoveF]
        cases hm' : matchAt (c :: cs) with
        | some rest =>
          have hr := hm _ _ hm'
          simp only [List.length_cons] at h1 h2 hr
          exact ih g₂ rest (by omega) (by omega)
        | none =>
          have : cs.length ≤ g := by simp at h1; omega
          have : cs.length ≤ g₂ := by simp at h2; omega
          simp only [List.cons.injEq, true_and]
          exact ih g₂ cs (by omega) (by omega)

theorem scanRemove_nil {matchAt : List Char → Option (List Char)} :
    scanRemove matchAt [] = [] := rfl

theorem scanRemove_cons_some {matchAt : List Char → Option (List Char)}
    (hm : Shrinking matchAt) {c : Char} {cs rest : List Char}
    (h : matchAt (c :: cs) = some rest) :
    scanRemove matchAt (c :: cs) = scanRemove matchAt rest := by
  have hr := hm _ _ h
  simp only [List.length_cons] at hr
  unfold scanRemove
  simp only [List.length_cons, scanRemoveF, h]
  exact scanRemoveF_fuel hm _ _ _ (by omega) (by omega)

theorem scanRemove_cons_none {matchAt : List Char → Option (List Char)}
    (_hm : Shrinking matchAt) {c : Char} {cs : List Char}
    (h : matchAt (c :: cs) = none) :
    scanRemove matchAt (c :: cs) = c :: scanRemove matchAt cs := by
  unfold scanRemove
  simp only [List.length_cons, scanRemoveF, h]

theorem scanRemove_eq_self {matchAt : List Char → Option (List Char)}
    (hm : Shrinking matchAt) :
    ∀ l, (∀ tl ∈ l.tails, matchAt tl = none) → scanRemove matchAt l = l := by
  intro l
  induction l with
  | nil => intro _; rfl
  | cons c cs ih =>
    intro h
    have hhead : matchAt (c :: cs) = none := h _ (by simp [List.tails_cons])
    rw [scanRemove_cons_none hm hhead, ih]
    intro tl htl
    exact h tl (by simp [List.tails_cons, htl])

theorem scanRemove_length_le {matchAt : List Char → Option (List Char)}
    (hm : Shrinking matchAt) :
    ∀ l, (scanRemove matchAt l).length ≤ l.length := by
  have key : ∀ n l, l.length ≤ n → (scanRemove matchAt l).length ≤ l.length := by
    intro n
    induction n with
    | zero =>
      intro l hl
      have : l = [] := by
        cases l with
        | nil => rfl
        | cons c cs => simp at hl
      subst this
      simp [scanRemove_nil]
    | succ m ih =>
      intro l hl
      cases l with
      | nil => simp [scanRemove_nil]
      | cons c cs =>
        cases hm' : matchAt (c :: cs) with
        | some rest =>
          rw [scanRemove_cons_some hm hm']
          have hr := hm _ _ hm'
          simp only [List.length_cons] at hl hr
          have := ih rest (by omega)
          simp only [List.length_cons]
          omega
        | none =>
          rw [scanRemove_cons_none hm hm']
          have : cs.length ≤ m := by simp at hl; omega
          have := ih cs this
          simp only [List.length_cons]
          omega
  intro l
  exact key l.length l (le_refl _)

theorem jsTrim_length_le (l : List Char) : (jsTrim l).length ≤ l.length :=
  le_trans ((List.rdropWhile_prefix _ _).length_le)
    ((List.dropWhile_suffix _).length_le)

theorem jsTrim_idem (l : List Char) : jsTrim (jsTrim l) = jsTrim l := by
  unfold jsTrim
  have h1 : List.dropWhile isJsSpace (List.dropWhile isJsSpace l) =
      List.dropWhile isJsSpace l := List.dropWhile_idempotent isJsSpace l
  have h2 : List.dropWhile isJsSpace
      (List.rdropWhile isJsSpace (l.dropWhile isJsSpace)) =
      List.rdropWhile isJsSpace (l.dropWhile isJsSpace) := by
    rcases List.rdropWhile_prefix isJsSpace (l.dropWhile isJsSpace) with ⟨t, ht⟩
    cases hvv : List.rdropWhile isJsSpace (l.dropWhile isJsSpace) with
    | nil => rfl
    | cons a as =>
      have hd : List.dropWhile isJsSpace l = a :: (as ++ t) := by
        rw [← ht, hvv]
        simp
      have hu_eq : List.dropWhile isJsSpace (a :: (as ++ t)) = a :: (as ++ t) := by
        rw [← hd]
        exact h1
      have hna : isJsSpace a = false := by
        by_contra hcontra
        have ha : isJsSpace a = true := by
          cases hx : isJsSpace a
          · exact absurd hx hcontra
          · rfl
        rw [List.dropWhile_cons, if_pos ha] at hu_eq
        have hle : (List.dropWhile isJsSpace (as ++ t)).length ≤ (as ++ t).length :=
          (List.dropWhile_suffix _).length_le
        have := congrArg List.length hu_eq
        simp only [List.length_cons] at this
        omega
      rw [List.dropWhile_cons, if_neg (by simp [hna])]
  rw [h2, List.rdropWhile_idempotent]

theorem sanitizeList_length_le (l : List Char) : (sanitizeList l).length ≤ l.length := by
  unfold sanitizeList removeOnAttr removeJsUri stripTags removeScriptBlocks
  calc (jsTrim (scanRemove onAttrMatchAt (scanRemove jsUriMatchAt
          (scanRemove tagMatchAt (scanRemove scriptMatchAt l))))).length
      ≤ (scanRemove onAttrMatchAt (scanRemove jsUriMatchAt
          (scanRemove tagMatchAt (scanRemove scriptMatchAt l)))).length := jsTrim_length_le _
    _ ≤ (scanRemove jsUriMatchAt
          (scanRemove tagMatchAt (scanRemove scriptMatchAt l))).length :=
        scanRemove_length_le onAttrMatchAt_length _
    _ ≤ (scanRemove tagMatchAt (scanRemove scriptMatchAt l)).length :=
        scanRemove_length_le jsUriMatchAt_length _
    _ ≤ (scanRemove scriptMatchAt l).length := scanRemove_length_le tagMatchAt_length _
    _ ≤ l.length := scanRemove_length_le scriptMatchAt_length _

/-- Length of `aChars`. -/
theorem aChars_length (n : Nat) : (aChars n).length = n := by
  show (List.replicate n 'a').length = n
  simp

/-! ### C6 — validation boundary -/

/-- C6: the request validator rejects every transcript of exactly 99 characters,
accepts a transcript of exactly 100 characters that survives sanitization
unchanged, and rejects every transcript of 100001 characters. -/
theorem validation_boundary (dt : String → Bool) (t99 t100 t100001 : String)
    (h99 : t99.length = 99) (h100 : t100.length = 100)
    (hclean : sanitizeTranscriptText t100 = .ok t100)
    (hbig : t100001.length = 100001) :
    (validateTranscriptRequest dt { transcript := t99 }).isOk = false ∧
    validateTranscriptRequest dt { transcript := t100 } = .ok { transcript := t100 } ∧
    (validateTranscriptRequest dt { transcript := t100001 }).isOk = false := by
  refine ⟨?_, ?_, ?_⟩
  · simp [validateTranscriptRequest, zodRequestIssues, h99, Except.isOk, Except.toBool]
  · simp [validateTranscriptRequest, zodRequestIssues, h100, hclean]
  · simp [validateTranscriptRequest, zodRequestIssues, hbig, Except.isOk, Except.toBool]

/-- Witness for C6 at concrete inputs. -/
theorem validation_boundary_witness :
    (aChars 99).length = 99 ∧ (aChars 100).length = 100 ∧
    sanitizeTranscriptText (aChars 100) = .ok (aChars 100) ∧
    (aChars 100001).length = 100001 ∧
    ((validateTranscriptRequest (fun _ => true) { transcript := aChars 99 }).isOk = false ∧
     validateTranscriptRequest (fun _ => true) { transcript := aChars 100 } =
       .ok { transcript := aChars 100 } ∧
     (validateTranscriptRequest (fun _ => true) { transcript := aChars 100001 }).isOk = false) :=
  ⟨aChars_length 99, aChars_length 100, rfl, aChars_length 100001,
   validation_boundary (fun _ => true) (aChars 99) (aChars 100) (aChars 100001)
     (aChars_length 99) (aChars_length 100) rfl (aChars_length 100001)⟩

/-! ### C7 — sanitization idempotence -/

/-- C7 counterexample: the sanitizer is not idempotent.  Removing the inner
`javascript:` from `ajjavascript:avascript:` splices together a new occurrence,
so sanitizing the sanitizer's own output removes further content. -/
theorem sanitize_not_idempotent :
    sanitizeTranscriptText "ajjavascript:avascript:" = .ok "ajavascript:" ∧
    sanitizeTranscriptText "ajavascript:" = .ok "a" ∧
    ("a" : String) ≠ "ajavascript:" :=
  ⟨rfl, rfl, by decide⟩

/-- C7 amended: sanitization is idempotent on every input whose output contains
none of the four removable patterns (no script block, no HTML tag opening, no
case-insensitive `javascript:`, no inline-event-handler match at any position). -/
theorem sanitize_idempotent_on_pattern_free (t s : String)
    (hok : sanitizeTranscriptText t = .ok s)
    (hscript : ∀ tl ∈ s.toList.tails, scriptMatchAt tl = none)
    (htag : ∀ tl ∈ s.toList.tails, tagMatchAt tl = none)
    (hjs : ∀ tl ∈ s.toList.tails, jsUriMatchAt tl = none)
    (hon : ∀ tl ∈ s.toList.tails, onAttrMatchAt tl = none) :
    sanitizeTranscriptText s = .ok s := by
  unfold sanitizeTranscriptText at hok
  by_cases hbig : MAX_TEXT_LENGTH < t.length
  · rw [if_pos hbig] at hok
    exact absurd hok (by simp)
  · rw [if_neg hbig] at hok
    by_cases hz : (String.mk (sanitizeList t.toList)).length = 0
    · rw [if_pos hz] at hok
      exact absurd hok (by simp)
    · rw [if_neg hz] at hok
      simp only [Except.ok.injEq] at hok
      have hs_list : s.toList = sanitizeList t.toList := by
        rw [← hok]
        rfl
      have hs_len : s.length ≤ t.length := by
        have h1 : s.length = (sanitizeList t.toList).length := by
          rw [← hok]
          rfl
        rw [h1]
        exact sanitizeList_length_le t.toList
      have hfix : sanitizeList s.toList = s.toList := by
        unfold sanitizeList removeOnAttr removeJsUri stripTags removeScriptBlocks
        rw [scanRemove_eq_self scriptMatchAt_length _ hscript,
            scanRemove_eq_self tagMatchAt_length _ htag,
            scanRemove_eq_self jsUriMatchAt_length _ hjs,
            scanRemove_eq_self onAttrMatchAt_length _ hon]
        have : s.toList = jsTrim (removeOnAttr (removeJsUri (stripTags
            (removeScriptBlocks t.toList)))) := hs_list
        rw [this, jsTrim_idem]
      unfold sanitizeTranscriptText
      rw [if_neg (by unfold MAX_TEXT_LENGTH at hbig ⊢; omega)]
      have hmk : String.mk (sanitizeList s.toList) = s := by
        rw [hfix]
        cases s
        rfl
      rw [if_neg (by rw [hmk]; intro hcontra; rw [← hok] at hcontra; exact hz hcontra),
          hmk]

/-- Witness for the amended C7 at a concrete input. -/
theorem sanitize_idempotent_witness :
    sanitizeTranscriptText "  hello world  " = .ok "hello world" ∧
    sanitizeTranscriptText "hello world" = .ok "hello world" :=
  ⟨rfl, sanitize_idempotent_on_pattern_free "  hello world  " "hello world" rfl
    (by decide) (by decide) (by decide) (by decide)⟩

/-! ### C4 — summary score formula and readiness thresholds -/

/-- C4: the summary's overall qualification score is the JS rounding of
`0.3 * conversation quality + 0.3 * psychology confidence + 0.4 * risk score`,
where the risk score maps a deal-risk level of low/medium/high to 80/60/40 and
anything else (absent or `critical`) to 20; and the investment readiness is
categorized from that score by the fixed thresholds, with `high` requiring both
a score of at least 80 and stated interest `ready-to-act`. -/
theorem summary_score_formula (analyses : Analyses) (md : GoldIRAMetadata) :
    (generateSummary analyses md).overallQualificationScore =
      jsRound (((analyses.conversation.bind (fun a => a.conversationScorecard)).map
          (fun c => c.overallQuality)).getD 0 * (3/10) +
        ((analyses.psychology.bind (fun a => a.personalityType)).map
          (fun p => p.confidence)).getD 0 * (3/10) +
        (match (analyses.dealRisk.bind (fun a => a.dealHealth)).bind (fun d => d.riskLevel) with
         | some .low => (80 : ℚ)
         | some .medium => 60
         | some .high => 40
         | _ => 20) * (4/10)) ∧
    (generateSummary analyses md).investmentReadiness =
      (if 80 ≤ (generateSummary analyses md).overallQualificationScore ∧
          md.goldIRAInterest = .readyToAct then .high
       else if 60 ≤ (generateSummary analyses md).overallQualificationScore then .medium
       else if 40 ≤ (generateSummary analyses md).overallQualificationScore then .low
       else .notReady) :=
  ⟨rfl, rfl⟩

/-! ### C5 — determinism of the aggregation -/

/-- The readiness computed by the aggregation, as a function of the exported
score and the stated interest (definitional restatement, shared by proofs). -/
theorem generateSummary_readiness_eq (a : Analyses) (md : GoldIRAMetadata) :
    (generateSummary a md).investmentReadiness =
      (if 80 ≤ (generateSummary a md).overallQualificationScore ∧
          md.goldIRAInterest = .readyToAct then .high
       else if 60 ≤ (generateSummary a md).overallQualificationScore then .medium
       else if 40 ≤ (generateSummary a md).overallQualificationScore then .low
       else .notReady) := rfl

/-- The score of `highAnalyses` under any metadata. -/
theorem highAnalyses_score (md : GoldIRAMetadata) :
    (generateSummary highAnalyses md).overallQualificationScore = 92 := by
  show jsRound ((100 : ℚ) * (3/10) + 100 * (3/10) + 80 * (4/10)) = 92
  norm_num [jsRound]

/-- C5 counterexample: identical six stage results, but two request metadata
objects differing only in `goldIRAInterest`, yield the same score yet different
readiness categories — the aggregation depends on the metadata's stated
interest, not only on the six stage results. -/
theorem summary_readiness_depends_on_interest :
    mdReady = { mdResearching with goldIRAInterest := .readyToAct } ∧
    (generateSummary highAnalyses mdReady).overallQualificationScore = 92 ∧
    (generateSummary highAnalyses mdResearching).overallQualificationScore = 92 ∧
    (generateSummary highAnalyses mdReady).investmentReadiness = .high ∧
    (generateSummary highAnalyses mdResearching).investmentReadiness = .medium ∧
    (generateSummary highAnalyses mdReady).investmentReadiness ≠
      (generateSummary highAnalyses mdResearching).investmentReadiness := by
  have hready : (generateSummary highAnalyses mdReady).investmentReadiness = .high := by
    rw [generateSummary_readiness_eq, highAnalyses_score]
    have hint : mdReady.goldIRAInterest = .readyToAct := rfl
    rw [if_pos ⟨by norm_num, hint⟩]
  have hres : (generateSummary highAnalyses mdResearching).investmentReadiness = .medium := by
    rw [generateSummary_readiness_eq, highAnalyses_score]
    have hint : mdResearching.goldIRAInterest = .researching := rfl
    rw [if_neg (by rw [hint]; simp), if_pos (by norm_num)]
  refine ⟨rfl, highAnalyses_score mdReady, highAnalyses_score mdResearching, hready, hres, ?_⟩
  rw [hready, hres]
  simp

/-- C5 amended: the aggregation is a pure function of the six stage results and
the metadata's stated interest: the score depends only on the stage results, and
two invocations with identical stage results and identical `goldIRAInterest`
produce identical scores and readiness categories. -/
theorem summary_deterministic (a : Analyses) (md₁ md₂ : GoldIRAMetadata) :
    (generateSummary a md₁).overallQualificationScore =
      (generateSummary a md₂).overallQualificationScore ∧
    (md₁.goldIRAInterest = md₂.goldIRAInterest →
      (generateSummary a md₁).investmentReadiness =
        (generateSummary a md₂).investmentReadiness) := by
  constructor
  · rfl
  · intro h
    simp only [generateSummary, h]

/-- Witness for the amended C5: two metadata objects differing in the prospect
name but sharing the stated interest give identical score and readiness. -/
theorem summary_deterministic_witness :
    mdReady.goldIRAInterest = mdReadyAlt.goldIRAInterest ∧
    (generateSummary highAnalyses mdReady).overallQualificationScore =
      (generateSummary highAnalyses mdReadyAlt).overallQualificationScore ∧
    (generateSummary highAnalyses mdReady).investmentReadiness =
      (generateSummary highAnalyses mdReadyAlt).investmentReadiness :=
  ⟨rfl, (summary_deterministic highAnalyses mdReady mdReadyAlt).1,
   (summary_deterministic highAnalyses mdReady mdReadyAlt).2 rfl⟩

/-! ### C10 — overall risk level -/

/-- C10 counterexample: with a deal-risk level of `high` and an objection of
severity above 80, the overall risk is `high`, not `medium`. -/
theorem overall_risk_high_counterexample :
    ((riskyAnalyses.dealRisk.bind (fun a => a.dealHealth)).bind (fun d => d.riskLevel)) =
      some RiskLevel.high ∧
    determineOverallRisk riskyAnalyses = RiskLevel.high ∧
    determineOverallRisk riskyAnalyses ≠ RiskLevel.medium :=
  ⟨rfl, by decide, by decide⟩

/-- Definitional restatement of `determineOverallRisk` as one conditional
(shared by proofs). -/
theorem determineOverallRisk_eq (a : Analyses) :
    determineOverallRisk a =
      (if ((a.dealRisk.bind (fun x => x.dealHealth)).bind (fun d => d.riskLevel)).getD .medium
            = RiskLevel.critical ∨
          (match a.objections.bind (fun x => x.objectionInventory) with
           | some inv =>
             if inv.any (fun obj => decide (80 < obj.severity)) then RiskLevel.high
             else RiskLevel.medium
           | Option.none => RiskLevel.medium) = RiskLevel.high then RiskLevel.high
       else if ((a.dealRisk.bind (fun x => x.dealHealth)).bind (fun d => d.riskLevel)).getD .medium
            = RiskLevel.high then RiskLevel.medium
       else RiskLevel.low) := rfl

/-- C10 amended: the summary's risk level is `determineOverallRisk` of the stage
results, which only ever produces `low`, `medium` or `high` (never `critical`,
although the declared enum contains it); and a deal-risk level of `high` yields
an overall `medium` provided no objection has severity above 80. -/
theorem overall_risk_range_and_mapping (analyses : Analyses) (md : GoldIRAMetadata) :
    (generateSummary analyses md).riskLevel = determineOverallRisk analyses ∧
    determineOverallRisk analyses ≠ RiskLevel.critical ∧
    (((analyses.dealRisk.bind (fun a => a.dealHealth)).bind (fun d => d.riskLevel)) =
        some RiskLevel.high →
      (match analyses.objections.bind (fun a => a.objectionInventory) with
       | some inv => inv.any (fun obj => decide (80 < obj.severity))
       | Option.none => false) = false →
      determineOverallRisk analyses = RiskLevel.medium) := by
  refine ⟨rfl, ?_, ?_⟩
  · rw [determineOverallRisk_eq]
    have habs : ∀ (c1 c2 : Prop) (_ : Decidable c1) (_ : Decidable c2),
        (if c1 then RiskLevel.high else if c2 then RiskLevel.medium else RiskLevel.low) ≠
          RiskLevel.critical := by
      intro c1 c2 d1 d2
      by_cases h1 : c1 <;> by_cases h2 : c2 <;> simp [h1, h2]
    exact habs _ _ _ _
  · intro h1 h2
    have hd : ((analyses.dealRisk.bind (fun x => x.dealHealth)).bind
        (fun d => d.riskLevel)).getD .medium = RiskLevel.high := by
      rw [h1]
      rfl
    have hsev : (match analyses.objections.bind (fun x => x.objectionInventory) with
        | some inv =>
          if inv.any (fun obj => decide (80 < obj.severity)) then RiskLevel.high
          else RiskLevel.medium
        | Option.none => RiskLevel.medium) = RiskLevel.medium := by
      cases hcase : analyses.objections.bind (fun x => x.objectionInventory) with
      | some inv =>
        rw [hcase] at h2
        have h2' : inv.any (fun obj => decide (80 < obj.severity)) = false := h2
        simp only [h2', if_false, Bool.false_eq_true]
      | none => simp
    rw [determineOverallRisk_eq, if_neg (by rw [hd, hsev]; simp), if_pos hd]

/-- Witness for the amended C10: a deal risk of `high` with no objections gives
overall `medium`. -/
theorem overall_risk_witness :
    ((mediumRiskAnalyses.dealRisk.bind (fun a => a.dealHealth)).bind (fun d => d.riskLevel)) =
      some RiskLevel.high ∧
    determineOverallRisk mediumRiskAnalyses ≠ RiskLevel.critical ∧
    determineOverallRisk mediumRiskAnalyses = RiskLevel.medium :=
  ⟨rfl, (overall_risk_range_and_mapping mediumRiskAnalyses demoMetadata).2.1,
   (overall_risk_range_and_mapping mediumRiskAnalyses demoMetadata).2.2 rfl (by decide)⟩

/-! ### Helper lemmas about the orchestrator loop -/

/-- The trace component of `executeAnalysis` is the loop's trace. -/
theorem executeAnalysis_fst
    (f : ExecutionStep → AnalysisContext → Except String StageAnalysis)
    (c : AnalysisContext) :
    (executeAnalysis f c).1 = (runSteps f executionOrder c {}).1 := rfl

/-- A failing loop makes `executeAnalysis` rethrow with the wrapping prefix. -/
theorem executeAnalysis_snd_error
    (f : ExecutionStep → AnalysisContext → Except String StageAnalysis)
    (c : AnalysisContext) {e : String}
    (h : (runSteps f executionOrder c {}).2 = .error e) :
    (executeAnalysis f c).2 = .error ("Gold IRA analysis failed: " ++ e) := by
  simp only [executeAnalysis, h]

/-- A successful loop yields the assembled result object. -/
theorem executeAnalysis_snd_ok
    (f : ExecutionStep → AnalysisContext → Except String StageAnalysis)
    (c : AnalysisContext) {ctxF : AnalysisContext} {analyses : Analyses}
    (h : (runSteps f executionOrder c {}).2 = .ok (ctxF, analyses)) :
    (executeAnalysis f c).2 =
      .ok { executionOrder := executionOrder.map (fun s => s.promptId),
            analyses := analyses,
            summary := generateSummary analyses ctxF.metadata } := by
  simp only [executeAnalysis, h]

/-- On success, the loop's trace is exactly one execution event followed by one
merge event per table entry, in table order. -/
theorem runSteps_trace (f : ExecutionStep → AnalysisContext → Except String StageAnalysis) :
    ∀ (steps : List ExecutionStep) (ctx : AnalysisContext) (acc : Analyses),
      (runSteps f steps ctx acc).2.isOk = true →
      traceTags (runSteps f steps ctx acc).1 =
        (steps.map (fun s => [(true, s.promptId), (false, s.promptId)])).flatten := by
  intro steps
  induction steps with
  | nil =>
    intro ctx acc _
    rfl
  | cons step rest ih =>
    intro ctx acc h
    cases h1 : f step ctx with
    | error e =>
      simp only [runSteps, h1] at h
      exact absurd h (by simp [Except.isOk, Except.toBool])
    | ok a =>
      simp only [runSteps, h1] at h ⊢
      have hrec := ih (updateContext ctx step.promptId a) (setAnalysis acc step.promptId a) h
      simp only [traceTags, List.map_cons, List.flatten_cons] at hrec ⊢
      simp [hrec]

/-! ### C1 — execution order and strict sequencing -/

/-- C1: on every successful run, the result's `executionOrder` field is exactly
conversation, psychology, objections, dealRisk, actionPlan, qualification, and
the pipeline trace is strictly sequential in that order: each stage's execution
event is followed by its merge event before the next stage's execution event
appears. -/
theorem pipeline_execution_order
    (stageFn : ExecutionStep → AnalysisContext → Except String StageAnalysis)
    (ctx : AnalysisContext)
    (h : (executeAnalysis stageFn ctx).2.isOk = true) :
    resultExecutionOrder (executeAnalysis stageFn ctx).2 =
      [.conversation, .psychology, .objections, .dealRisk, .actionPlan, .qualification] ∧
    traceTags (executeAnalysis stageFn ctx).1 =
      [(true, .conversation), (false, .conversation),
       (true, .psychology), (false, .psychology),
       (true, .objections), (false, .objections),
       (true, .dealRisk), (false, .dealRisk),
       (true, .actionPlan), (false, .actionPlan),
       (true, .qualification), (false, .qualification)] := by
  have hok : (runSteps stageFn executionOrder ctx {}).2.isOk = true := by
    cases hr : (runSteps stageFn executionOrder ctx {}).2 with
    | error e =>
      rw [executeAnalysis_snd_error stageFn ctx hr] at h
      exact absurd h (by simp [Except.isOk, Except.toBool])
    | ok pair => rfl
  constructor
  · cases hr : (runSteps stageFn executionOrder ctx {}).2 with
    | error e =>
      rw [executeAnalysis_snd_error stageFn ctx hr] at h
      exact absurd h (by simp [Except.isOk, Except.toBool])
    | ok pair =>
      obtain ⟨ctxF, analyses⟩ := pair
      rw [executeAnalysis_snd_ok stageFn ctx hr]
      rfl
  · rw [executeAnalysis_fst, runSteps_trace stageFn executionOrder ctx {} hok]
    rfl

/-- Witness for C1: a stub stage executor that always succeeds yields a result
with the fixed execution order and the fully sequential trace. -/
theorem pipeline_execution_order_witness :
    (executeAnalysis okStage demoCtx).2.isOk = true ∧
    (resultExecutionOrder (executeAnalysis okStage demoCtx).2 =
      [.conversation, .psychology, .objections, .dealRisk, .actionPlan, .qualification] ∧
     traceTags (executeAnalysis okStage demoCtx).1 =
      [(true, .conversation), (false, .conversation),
       (true, .psychology), (false, .psychology),
       (true, .objections), (false, .objections),
       (true, .dealRisk), (false, .dealRisk),
       (true, .actionPlan), (false, .actionPlan),
       (true, .qualification), (false, .qualification)]) :=
  ⟨rfl, pipeline_execution_order okStage demoCtx rfl⟩

/-! ### C2 — full context at the qualification stage -/

/-- C2: whenever the qualification stage begins execution, the context it
receives already carries the merged results of all five prior stages
(conversation insights, psychology profile, objection analysis, risk
assessment, action plan). -/
theorem qualification_context_complete
    (stageFn : ExecutionStep → AnalysisContext → Except String StageAnalysis)
    (ctx c' : AnalysisContext)
    (hmem : PipelineEvent.exec .qualification c' ∈ (executeAnalysis stageFn ctx).1) :
    hasAllPriorResults c' = true := by
  rw [executeAnalysis_fst] at hmem
  simp only [executionOrder] at hmem
  cases h1 : stageFn { order := 1, promptId := StageId.conversation, fileName := "Prompt.2" } ctx with
  | error e =>
    simp [runSteps, h1] at hmem
  | ok a1 =>
    simp only [runSteps, h1] at hmem
    cases h2 : stageFn { order := 2, promptId := StageId.psychology, fileName := "Prompt.3" }
        (updateContext ctx StageId.conversation a1) with
    | error e =>
      simp [runSteps, h2] at hmem
    | ok a2 =>
      simp only [runSteps, h2] at hmem
      cases h3 : stageFn { order := 3, promptId := StageId.objections, fileName := "Prompt.4" }
          (updateContext (updateContext ctx StageId.conversation a1) StageId.psychology a2) with
      | error e =>
        simp [runSteps, h3] at hmem
      | ok a3 =>
        simp only [runSteps, h3] at hmem
        cases h4 : stageFn { order := 4, promptId := StageId.dealRisk, fileName := "Prompt.5" }
            (updateContext (updateContext (updateContext ctx StageId.conversation a1)
              StageId.psychology a2) StageId.objections a3) with
        | error e =>
          simp [runSteps, h4] at hmem
        | ok a4 =>
          simp only [runSteps, h4] at hmem
          cases h5 : stageFn { order := 5, promptId := StageId.actionPlan, fileName := "Prompt.6" }
              (updateContext (updateContext (updateContext (updateContext ctx
                StageId.conversation a1) StageId.psychology a2) StageId.objections a3)
                StageId.dealRisk a4) with
          | error e =>
            simp [runSteps, h5] at hmem
          | ok a5 =>
            simp only [runSteps, h5] at hmem
            cases h6 : stageFn { order := 6, promptId := StageId.qualification, fileName := "Prompt.1" }
                (updateContext (updateContext (updateContext (updateContext (updateContext ctx
                  StageId.conversation a1) StageId.psychology a2) StageId.objections a3)
                  StageId.dealRisk a4) StageId.actionPlan a5) with
            | error e =>
              simp only [runSteps, h6] at hmem
              simp only [List.mem_cons, List.not_mem_nil, or_false] at hmem
              rcases hmem with h | h | h | h | h | h | h | h | h | h | h
              all_goals
                first
                  | (exfalso
                     simp at h
                     done)
                  | (simp only [PipelineEvent.exec.injEq] at h
                     obtain ⟨-, rfl⟩ := h
                     rfl)
            | ok a6 =>
              simp only [runSteps, h6] at hmem
              simp only [List.mem_cons, List.not_mem_nil, or_false] at hmem
              rcases hmem with h | h | h | h | h | h | h | h | h | h | h | h
              all_goals
                first
                  | (exfalso
                     simp at h
                     done)
                  | (simp only [PipelineEvent.exec.injEq] at h
                     obtain ⟨-, rfl⟩ := h
                     rfl)

/-- Witness for C2: under the stub executor, the qualification execution event
appears in the trace with the fully populated context. -/
theorem qualification_context_complete_witness :
    PipelineEvent.exec .qualification demoCtx5 ∈ (executeAnalysis okStage demoCtx).1 ∧
    hasAllPriorResults demoCtx5 = true :=
  ⟨by decide, qualification_context_complete okStage demoCtx demoCtx5 (by decide)⟩

/-! ### C3 — failure of the objections stage -/

/-- C3 counterexample: with a stage executor whose objections stage throws
`Error: boom`, the run fails at the objections stage (the trace ends with its
execution event), yet the error returned by `executeAnalysis` is the generic
`Gold IRA analysis failed: Error: boom`, which nowhere mentions the stage
identifier `objections` — the stage attribution exists only in the console log,
not in the returned error. -/
theorem objections_failure_counterexample :
    (executeAnalysis failObjectionsStage demoCtx).2 =
      .error "Gold IRA analysis failed: Error: boom" ∧
    (executeAnalysis failObjectionsStage demoCtx).1.getLast? =
      some (.exec .objections
        (updateContext (updateContext demoCtx .conversation {}) .psychology {})) ∧
    containsSubstr "Gold IRA analysis failed: Error: boom" "objections" = false := by
  refine ⟨rfl, rfl, by decide⟩

/-- C3 amended: if the first two stages succeed and the objections stage throws
`e`, then `executeAnalysis` rejects with exactly `Gold IRA analysis failed: e`
(no stage-id attribution in the returned error), the trace stops at the
objections execution event, and no successful result object — hence nothing
carrying a `summary` field — is returned. -/
theorem objections_failure_propagation
    (stageFn : ExecutionStep → AnalysisContext → Except String StageAnalysis)
    (ctx : AnalysisContext) (a1 a2 : StageAnalysis) (e : String)
    (h1 : stageFn { order := 1, promptId := .conversation, fileName := "Prompt.2" } ctx = .ok a1)
    (h2 : stageFn { order := 2, promptId := .psychology, fileName := "Prompt.3" }
        (updateContext ctx .conversation a1) = .ok a2)
    (h3 : stageFn { order := 3, promptId := .objections, fileName := "Prompt.4" }
        (updateContext (updateContext ctx .conversation a1) .psychology a2) = .error e) :
    (executeAnalysis stageFn ctx).2 = .error ("Gold IRA analysis failed: " ++ e) ∧
    (executeAnalysis stageFn ctx).1 =
      [.exec .conversation ctx, .merge .conversation,
       .exec .psychology (updateContext ctx .conversation a1), .merge .psychology,
       .exec .objections (updateContext (updateContext ctx .conversation a1) .psychology a2)] ∧
    ∀ res : GoldIRAAnalysisResult, (executeAnalysis stageFn ctx).2 ≠ .ok res := by
  have hrun : (runSteps stageFn executionOrder ctx {}).2 = .error e := by
    simp only [executionOrder, runSteps, h1, h2, h3]
  refine ⟨executeAnalysis_snd_error stageFn ctx hrun, ?_, ?_⟩
  · rw [executeAnalysis_fst]
    simp only [executionOrder, runSteps, h1, h2, h3]
  · intro res hcontra
    rw [executeAnalysis_snd_error stageFn ctx hrun] at hcontra
    exact absurd hcontra (by simp)

/-- Witness for the amended C3 at the concrete failing executor. -/
theorem objections_failure_witness :
    failObjectionsStage { order := 1, promptId := .conversation, fileName := "Prompt.2" }
      demoCtx = .ok {} ∧
    failObjectionsStage { order := 3, promptId := .objections, fileName := "Prompt.4" }
      (updateContext (updateContext demoCtx .conversation {}) .psychology {}) =
      .error "Error: boom" ∧
    (executeAnalysis failObjectionsStage demoCtx).2 =
      .error ("Gold IRA analysis failed: " ++ "Error: boom") :=
  ⟨rfl, rfl,
   (objections_failure_propagation failObjectionsStage demoCtx {} {} "Error: boom"
     rfl rfl rfl).1⟩

/-! ### C8 — business-rule inconsistencies -/

/-- C8 counterexample: a request that passes structural validation, with
`customerAge` 45 and `retirementStatus` retired (a business-rule
inconsistency), is rejected by `validateBusinessRules` — the violation is not a
mere warning — and the tool invocation returns an error response instead of
proceeding to analysis. -/
theorem business_rules_reject_counterexample :
    validateTranscriptRequest (fun _ => true) demoRawRequest = .ok demoValidated ∧
    demoValidated.metadata.bind (fun m => m.customerAge) = some 45 ∧
    demoValidated.metadata.bind (fun m => m.retirementStatus) =
      some VRetirementStatus.retired ∧
    validateBusinessRules demoValidated =
      .error "Business rule validation failed: Customer age and retirement status seem inconsistent" ∧
    (toolExecute (fun _ => true) {} 0 demoToolInput).2 =
      .failure "Business rule validation failed: Customer age and retirement status seem inconsistent" :=
  ⟨rfl, rfl, rfl, rfl, rfl⟩

/-- C8 amended: a business-rule inconsistency found after structural validation
is a hard rejection, not a warning: `validateBusinessRules` throws whenever its
issue list is nonempty (logging the violation as a security event), and the tool
invocation then returns that error response — the request does not proceed to
analysis. -/
theorem business_rules_hard_reject
    (dt : String → Bool) (reg : Registry) (now : Nat) (input : ToolInput)
    (req : TranscriptRequest) (m : String)
    (hv : validateTranscriptRequest dt
        { transcript := input.transcript, filename := none, metadata := input.metadata,
          sessionId := some (sessionHex (createSession reg now).2) } = .ok req)
    (hb : validateBusinessRules req = .error m) :
    (toolExecute dt reg now input).2 = .failure m ∧
    ∀ req' : TranscriptRequest, businessRuleIssues req' ≠ [] →
      (validateBusinessRules req').isOk = false := by
  constructor
  · simp only [toolExecute, hv, hb]
  · intro req' hne
    unfold validateBusinessRules
    cases hc : businessRuleIssues req' with
    | nil => exact absurd hc hne
    | cons i is => simp [Except.isOk, Except.toBool]

/-- Witness for the amended C8 at the concrete inconsistent request. -/
theorem business_rules_hard_reject_witness :
    validateTranscriptRequest (fun _ => true)
      { transcript := demoToolInput.transcript, filename := none,
        metadata := demoToolInput.metadata,
        sessionId := some (sessionHex (createSession {} 0).2) } = .ok demoValidatedSession ∧
    validateBusinessRules demoValidatedSession =
      .error "Business rule validation failed: Customer age and retirement status seem inconsistent" ∧
    (toolExecute (fun _ => true) {} 0 demoToolInput).2 =
      .failure "Business rule validation failed: Customer age and retirement status seem inconsistent" :=
  ⟨by rfl, rfl,
   (business_rules_hard_reject (fun _ => true) {} 0 demoToolInput demoValidatedSession
     "Business rule validation failed: Customer age and retirement status seem inconsistent"
     (by rfl) rfl).1⟩

/-! ### C9 — the per-session analysis quota -/

/-- Looking up the freshly minted session finds it with a zero counter (it sits
at the front of the registry and survives the same-instant cleanup). -/
theorem lookup_createSession (reg : Registry) (now : Nat) :
    lookupSession (createSession reg now).1 (createSession reg now).2 =
      some { id := reg.nextId, created := now, lastAccess := now, analysisCount := 0 } := by
  unfold createSession cleanupExpiredSessions lookupSession
  simp [SESSION_TIMEOUT, List.filter_cons]

/-- Charging the freshly minted session always succeeds. -/
theorem increment_fresh (reg : Registry) (now : Nat) :
    (incrementAnalysisCount (createSession reg now).1 (createSession reg now).2).2 = true := by
  unfold incrementAnalysisCount
  rw [lookup_createSession]
  simp [MAX_ANALYSES_PER_SESSION]

/-- Two strings with different head characters differ. -/
theorem mk_cons_ne {c d : Char} (l1 l2 : List Char) (hcd : c ≠ d) :
    String.mk (c :: l1) ≠ String.mk (d :: l2) := by
  intro h
  have h2 : c :: l1 = d :: l2 := congrArg String.data h
  simp only [List.cons.injEq] at h2
  exact hcd h2.1

/-- Every error thrown by the request validator starts with `Validation failed:`
or is one of the sanitizer's two messages. -/
theorem validateTranscriptRequest_error_shape (dt : String → Bool) (r : RawRequest)
    (m : String) (h : validateTranscriptRequest dt r = .error m) :
    (∃ rest, m = "Validation failed: " ++ rest) ∨
    m = "Transcript too long. Maximum 100000 characters allowed" ∨
    m = "Transcript cannot be empty after sanitization" := by
  unfold validateTranscriptRequest at h
  cases hz : zodRequestIssues dt r with
  | nil =>
    rw [hz] at h
    cases hs : sanitizeTranscriptText r.transcript with
    | error e =>
      rw [hs] at h
      simp only [Except.error.injEq] at h
      subst h
      unfold sanitizeTranscriptText at hs
      by_cases h1 : MAX_TEXT_LENGTH < r.transcript.length
      · rw [if_pos h1] at hs
        simp only [Except.error.injEq] at hs
        right; left
        exact hs.symm
      · rw [if_neg h1] at hs
        by_cases h2 : (String.mk (sanitizeList r.transcript.toList)).length = 0
        · rw [if_pos h2] at hs
          simp only [Except.error.injEq] at hs
          right; right
          exact hs.symm
        · rw [if_neg h2] at hs
          exact absurd hs (by simp)
    | ok c =>
      rw [hs] at h
      exact absurd h (by simp)
  | cons i is =>
    rw [hz] at h
    simp only [Except.error.injEq] at h
    exact Or.inl ⟨_, h.symm⟩

/-- Every error thrown by the business rules starts with its fixed prefix. -/
theorem validateBusinessRules_error_shape (r : TranscriptRequest) (m : String)
    (h : validateBusinessRules r = .error m) :
    ∃ rest, m = "Business rule validation failed: " ++ rest := by
  unfold validateBusinessRules at h
  cases hc : businessRuleIssues r with
  | nil =>
    rw [hc] at h
    exact absurd h (by simp)
  | cons i is =>
    rw [hc] at h
    simp only [Except.error.injEq] at h
    exact ⟨_, h.symm⟩

/-- Every error thrown by the legacy Gold IRA check starts with its prefix. -/
theorem validateGoldIRAInput_error_shape (t : String) (md : Option VMetadata) (m : String)
    (h : validateGoldIRAInput t md = .error m) :
    ∃ rest, m = "Input validation failed: " ++ rest := by
  unfold validateGoldIRAInput at h
  cases hc : goldIRAInputErrors t md with
  | nil =>
    rw [hc] at h
    exact absurd h (by simp)
  | cons i is =>
    rw [hc] at h
    simp only [Except.error.injEq] at h
    exact ⟨_, h.symm⟩

/-- C9: `incrementAnalysisCount` does return false once a session's counter has
reached the cap of 10, but the tool's quota rejection is unreachable: every
`call-tool` invocation mints a fresh session (whose counter is 0) and charges
that one, so no invocation — in particular no 11th one — is ever rejected with
the session-limit error, contradicting the documented 10-analyses-per-session
limit. -/
theorem session_quota_unreachable :
    (∀ (reg : Registry) (id : Nat) (s : Session),
        lookupSession reg id = some s → MAX_ANALYSES_PER_SESSION ≤ s.analysisCount →
        (incrementAnalysisCount reg id).2 = false) ∧
    (∀ (dt : String → Bool) (reg : Registry) (now : Nat) (input : ToolInput),
        (toolExecute dt reg now input).2 ≠ .failure "Session analysis limit exceeded") := by
  constructor
  · intro reg id s hl hcap
    unfold incrementAnalysisCount
    rw [hl]
    simp [hcap]
  · intro dt reg now input h
    simp only [toolExecute] at h
    cases hval : validateTranscriptRequest dt
        { transcript := input.transcript, filename := none, metadata := input.metadata,
          sessionId := some (sessionHex (createSession reg now).2) } with
    | error m =>
      simp [hval] at h
      subst h
      rcases validateTranscriptRequest_error_shape dt _ _ hval with ⟨rest, hrest⟩ | hm | hm
      · exact absurd hrest.symm (mk_cons_ne _ _ (by decide))
      · exact absurd hm (by decide)
      · exact absurd hm (by decide)
    | ok validated =>
      cases hbr : validateBusinessRules validated with
      | error m =>
        simp [hval, hbr] at h
        subst h
        rcases validateBusinessRules_error_shape _ _ hbr with ⟨rest, hrest⟩
        exact absurd hrest.symm (mk_cons_ne _ _ (by decide))
      | ok u =>
        have hinc := increment_fresh reg now
        cases hic : incrementAnalysisCount (createSession reg now).1 (createSession reg now).2 with
        | mk reg2 b =>
          rw [hic] at hinc
          have hb : b = true := hinc
          subst hb
          cases hgl : validateGoldIRAInput validated.transcript validated.metadata with
          | error m =>
            simp [hval, hbr, hic, hgl] at h
            subst h
            rcases validateGoldIRAInput_error_shape _ _ _ hgl with ⟨rest, hrest⟩
            exact absurd hrest.symm (mk_cons_ne _ _ (by decide))
          | ok u2 =>
            simp [hval, hbr, hic, hgl] at h

/-- Witness for C9: a registry holding a session charged 10 times rejects a
direct further charge, while a tool invocation is never rejected for quota. -/
theorem session_quota_unreachable_witness :
    lookupSession cappedRegistry 7 =
      some { id := 7, created := 0, lastAccess := 0, analysisCount := 10 } ∧
    MAX_ANALYSES_PER_SESSION ≤ 10 ∧
    (incrementAnalysisCount cappedRegistry 7).2 = false ∧
    (toolExecute (fun _ => true) cappedRegistry 0 demoToolInput).2 ≠
      .failure "Session analysis limit exceeded" :=
  ⟨rfl, by decide,
   session_quota_unreachable.1 cappedRegistry 7
     { id := 7, created := 0, lastAccess := 0, analysisCount := 10 } rfl (by decide),
   session_quota_unreachable.2 (fun _ => true) cappedRegistry 0 demoToolInput⟩
